import Mathlib

/-!
Verification of the posthog-plugin-server specification against a shallow
embedding of the server's TypeScript source.

Conventions used throughout:
* luxon `DateTime` values are modelled as milliseconds since the epoch
  (`Int`); an Invalid DateTime is `none` in an `Option Int`.
* JS object maps are association lists; `{ ...a, ...b }` is `jsSpread a b`.
* Database rows are records; each SQL statement the source issues is one
  Lean function on an explicit `PgState`.
* An `async` call that the source does not `await` still performs its
  effects, but its rejection cannot reach the enclosing `try`/`catch`;
  such rejections are counted as unhandled.
-/

/-! ### Event timestamp resolution (src/ingestion/process-event.ts, `EventsProcessor.handleTimestamp`) -/

/-- JS truthiness of an optional string field: missing and `""` are falsy. -/
def jsTruthyStr : Option String → Bool
  | some s => s != ""
  | none => false

/-- Tail of `handleTimestamp` once `data['timestamp']` is falsy:
`if (data['offset']) { return now.minus(Duration.fromMillis(data['offset'])) } return now`.
A zero offset is falsy in JS, so it takes the final `return now` (same value). -/
def handleNoTimestamp (offset : Option Int) (now : Int) : Option Int :=
  match offset with
  | some o => if o == 0 then some now else some (now - o)
  | none => some now

/-- `EventsProcessor.handleTimestamp(data, now, sentAt)`. `fromISO` stands for
luxon's `DateTime.fromISO` on the event's string timestamp; `none` is an
unparseable (Invalid) result. For a string input luxon does not throw: with
`sent_at` present an unparseable timestamp makes `now.plus(fromISO(ts).diff(sentAt))`
Invalid, which is the same value the `catch` fall-through
`return DateTime.fromISO(data['timestamp'])` produces, so both are `fromISO ts` here. -/
def handleTimestamp (fromISO : String → Option Int) (timestamp : Option String)
    (offset : Option Int) (now : Int) (sentAt : Option Int) : Option Int :=
  match timestamp with
  | some ts =>
    if ts == "" then handleNoTimestamp offset now
    else
      match sentAt with
      | some sentAtMs =>
        match fromISO ts with
        | some tsMs => some (now + (tsMs - sentAtMs))
        | none => fromISO ts
      | none => fromISO ts
  | none => handleNoTimestamp offset now

/-- The timestamp precedence rules exactly as the spec words them:
(1) `timestamp` and `sent_at` both present: `now + (timestamp − sent_at)`,
with an error parsing `timestamp` falling through to the next rule;
(2) `timestamp` alone present: the timestamp value verbatim;
(3) `offset` present: `now − offset`; (4) `now`.
Presence of the string field `timestamp` follows JS truthiness (an empty
string is not a present timestamp); presence of `offset` is plain presence. -/
def specEventTime (fromISO : String → Option Int) (timestamp : Option String)
    (offset : Option Int) (now : Int) (sentAt : Option Int) : Option Int :=
  if jsTruthyStr timestamp && sentAt.isSome && (fromISO (timestamp.getD "")).isSome then
    some (now + ((fromISO (timestamp.getD "")).getD 0 - sentAt.getD 0))
  else if jsTruthyStr timestamp then
    fromISO (timestamp.getD "")
  else if offset.isSome then
    some (now - offset.getD 0)
  else
    some now

/-! ### Plugin pipeline ordering (src/plugins/setup.ts) -/

/-- One plugin-config row as read from `posthog_pluginconfig`. -/
structure PluginConfigRow where
  id : Nat
  plugin_id : Nat
  team_id : Nat
  order : Int
deriving Repr, DecidableEq

/-- Per-team grouping as `loadPluginsFromDB` builds it: rows are pushed onto the
team's array in load order, skipping rows whose plugin id is not among the loaded
plugins and rows whose `team_id` is falsy (0). -/
def pluginConfigsForTeam (pluginIds : List Nat) (rows : List PluginConfigRow)
    (teamId : Nat) : List PluginConfigRow :=
  rows.filter (fun r => pluginIds.contains r.plugin_id && r.team_id != 0 && r.team_id == teamId)

/-- Insertion step of a stable sort keyed on `order`: the new element goes after
every already-placed element whose `order` is ≤ its own. -/
def sortInsertByOrder (a : PluginConfigRow) : List PluginConfigRow → List PluginConfigRow
  | [] => [a]
  | b :: l => if b.order ≤ a.order then b :: sortInsertByOrder a l else a :: b :: l

/-- `Array.prototype.sort((a, b) => a.order - b.order)` as `setupPlugins` runs it on
each team's config list. The JS sort is stable, so it is modelled as a stable
insertion sort processing the array left to right; any stable sort keyed on
`order` yields this same list. -/
def jsSortByOrder (l : List PluginConfigRow) : List PluginConfigRow :=
  l.foldl (fun acc a => sortInsertByOrder a acc) []

/-- The pipeline list `setupPlugins` leaves in `server.pluginConfigsPerTeam` for one
team: the grouped rows, sorted in place by the order-only comparator. -/
def setupPluginsTeamPipeline (pluginIds : List Nat) (rows : List PluginConfigRow)
    (teamId : Nat) : List PluginConfigRow :=
  jsSortByOrder (pluginConfigsForTeam pluginIds rows teamId)

/-- Modelled from the spec: pipeline execution (the spec's "Pipeline execution":
given an event with team T, fetch the ordered config list for T and invoke each
config's VM in turn). The runner itself is not among the source files here, so
per the spec the visit order is the team's list read front to back. -/
def pipelineVisitOrder (pluginIds : List Nat) (rows : List PluginConfigRow)
    (teamId : Nat) : List Nat :=
  (setupPluginsTeamPipeline pluginIds rows teamId).map (fun c => c.id)

/-- Strict lexicographic order on `(order, id)` — the order the spec claims for a
team's pipeline. -/
def pcLexLt (a b : PluginConfigRow) : Prop :=
  a.order < b.order ∨ (a.order = b.order ∧ a.id < b.id)

instance (a b : PluginConfigRow) : Decidable (pcLexLt a b) := by
  unfold pcLexLt; infer_instance

/-! ### The person store (src/db.ts) and identity resolution (src/ingestion/process-event.ts) -/

/-- Person properties: a JS object of string-valued entries. -/
abbrev Props := List (String × String)

/-- JS object spread `{ ...a, ...b }`: the keys of `a` in `a`'s order with values
overridden by `b` where `b` also has the key, followed by the keys of `b` not in
`a`, in `b`'s order. -/
def jsSpread (a b : Props) : Props :=
  a.map (fun kv => (kv.1, (b.lookup kv.1).getD kv.2)) ++
    b.filter (fun kv => (a.lookup kv.1).isNone)

/-- A `posthog_person` row. (`uuid` and `is_user_id` are carried by the source but
play no part in the claims and are omitted.) -/
structure PersonRec where
  id : Nat
  team_id : Nat
  properties : Props
  is_identified : Bool
  created_at : Int
deriving Repr, DecidableEq

/-- A `posthog_persondistinctid` row; `(team_id, distinct_id)` carries a unique
constraint in the store. -/
structure PdiRec where
  id : Nat
  person_id : Nat
  distinct_id : String
  team_id : Nat
deriving Repr, DecidableEq

/-- A `posthog_cohortpeople` row (only the columns the merge touches). -/
structure CohortRec where
  id : Nat
  person_id : Nat
deriving Repr, DecidableEq

/-- The relational store as the identity code sees it, plus the next serial keys. -/
structure PgState where
  persons : List PersonRec
  pdis : List PdiRec
  cohorts : List CohortRec
  nextPersonId : Nat
  nextPdiId : Nat
deriving Repr, DecidableEq

/-- `DB.fetchPerson(teamId, distinctId)`: the join of `posthog_person` and
`posthog_persondistinctid` on `person_id = person.id` with both `team_id` columns
equal to `teamId` and the given `distinct_id`; the first row or nothing. -/
def fetchPerson (s : PgState) (teamId : Nat) (distinctId : String) : Option PersonRec :=
  (s.pdis.find? (fun r => r.team_id == teamId && r.distinct_id == distinctId)).bind
    (fun pdi => s.persons.find? (fun p => p.id == pdi.person_id && p.team_id == teamId))

/-- `DB.createPerson`: INSERT into `posthog_person` (no unique constraint these
inputs could violate — the key is serial), returning the created row. -/
def dbCreatePerson (s : PgState) (createdAt : Int) (properties : Props) (teamId : Nat)
    (isIdentified : Bool) : PgState × PersonRec :=
  let p : PersonRec := ⟨s.nextPersonId, teamId, properties, isIdentified, createdAt⟩
  ({ s with persons := s.persons ++ [p], nextPersonId := s.nextPersonId + 1 }, p)

/-- `DB.addDistinctId(person, distinctId)`: INSERT into `posthog_persondistinctid`.
When a row with the same `(team_id, distinct_id)` already exists the store rejects
with unique-violation error 23505 and the state is unchanged. -/
def dbAddDistinctId (s : PgState) (person : PersonRec) (distinctId : String) :
    PgState × Option String :=
  if s.pdis.any (fun r => r.team_id == person.team_id && r.distinct_id == distinctId) then
    (s, some "23505")
  else
    ({ s with pdis := s.pdis ++ [⟨s.nextPdiId, person.id, distinctId, person.team_id⟩],
              nextPdiId := s.nextPdiId + 1 }, none)

/-- `DB.updatePerson(person, update)` with `update = \x7b created_at \x7d`: only the
listed column is written. -/
def dbUpdatePersonCreatedAt (s : PgState) (personId : Nat) (createdAt : Int) : PgState :=
  let ps := s.persons.map (fun p => if p.id == personId then { p with created_at := createdAt } else p)
  { s with persons := ps }

/-- `DB.updatePerson(person, update)` with `update = \x7b properties \x7d`. -/
def dbUpdatePersonProperties (s : PgState) (personId : Nat) (properties : Props) : PgState :=
  let ps := s.persons.map (fun p => if p.id == personId then { p with properties := properties } else p)
  { s with persons := ps }

/-- `DB.updateDistinctId(personDistinctId, \x7b person_id \x7d)`. -/
def dbUpdateDistinctIdPerson (s : PgState) (pdiId : Nat) (personId : Nat) : PgState :=
  let rs := s.pdis.map (fun r => if r.id == pdiId then { r with person_id := personId } else r)
  { s with pdis := rs }

/-- `UPDATE posthog_cohortpeople SET person_id = $1 WHERE id = $2`. -/
def dbUpdateCohortPerson (s : PgState) (cohortId : Nat) (personId : Nat) : PgState :=
  let cs := s.cohorts.map (fun c => if c.id == cohortId then { c with person_id := personId } else c)
  { s with cohorts := cs }

/-- `DB.deletePerson(personId)`: deletes the person's distinct-id rows and the
person row. -/
def dbDeletePerson (s : PgState) (personId : Nat) : PgState :=
  { s with pdis := s.pdis.filter (fun r => r.person_id != personId),
           persons := s.persons.filter (fun p => p.id != personId) }

/-- A parameter as node-postgres serializes it: an integer, or a plain JS object
(which `prepareValue` turns into JSON text). -/
inductive PgParam where
  | pint (n : Nat)
  | pobject
deriving Repr, DecidableEq

/-- `mergePeople` passes `otherPerson` — the JS object itself, not `otherPerson.id` —
as the `person_id` parameter of its SELECT. -/
def personAsParam (_p : PersonRec) : PgParam :=
  PgParam.pobject

/-- `SELECT * FROM posthog_persondistinctid WHERE person_id = $1 AND team_id = $2`.
`person_id` is an integer column: an integer parameter matches rows, while a JS
object parameter arrives as JSON text that Postgres cannot cast to integer, so
the query rejects. -/
def selectPdisByPerson (s : PgState) (personParam : PgParam) (teamId : Nat) :
    Except String (List PdiRec) :=
  match personParam with
  | .pint n => .ok (s.pdis.filter (fun r => r.person_id == n && r.team_id == teamId))
  | .pobject => .error "invalid input syntax for type integer"

/-- The distinct-id / cohort / delete loop of `EventsProcessor.mergePeople`. Each
iteration SELECTs the other person's distinct ids (passing the person object as
the parameter), repoints them, repoints the cohort rows, and deletes the person.
The SELECT is awaited and not inside any try, so its rejection aborts the loop,
which is reported as the second component. -/
def mergeDistinctIdsLoop (mergeInto : PersonRec) :
    PgState → List PersonRec → PgState × Option String
  | s, [] => (s, none)
  | s, otherPerson :: rest =>
    match selectPdisByPerson s (personAsParam otherPerson) mergeInto.team_id with
    | .error e => (s, some e)
    | .ok otherPersonDistinctIds =>
      let s := otherPersonDistinctIds.foldl
        (fun st pdi => dbUpdateDistinctIdPerson st pdi.id mergeInto.id) s
      let cohortRows := s.cohorts.filter (fun c => c.person_id == otherPerson.id)
      let s := cohortRows.foldl (fun st c => dbUpdateCohortPerson st c.id mergeInto.id) s
      let s := dbDeletePerson s otherPerson.id
      mergeDistinctIdsLoop mergeInto s rest

/-- `EventsProcessor.mergePeople(mergeInto, peopleToMerge)`. The property merge
(`mergeInto.properties = { ...otherPerson.properties, ...mergeInto.properties }`)
only mutates the in-memory object: the following `updatePerson` call lists only
`created_at`, so the merged properties are never written to the store. The
returned `Option String` is the rejection of the (un-awaited by the caller)
`mergePeople` promise, if any. -/
def mergePeople (s : PgState) (mergeInto : PersonRec) (peopleToMerge : List PersonRec) :
    PgState × Option String :=
  let _mergedInMemoryProps : Props := peopleToMerge.foldl
    (fun acc other => jsSpread other.properties acc) mergeInto.properties
  let firstSeen : Int := peopleToMerge.foldl
    (fun fs other => if other.created_at < fs then other.created_at else fs)
    mergeInto.created_at
  let s := dbUpdatePersonCreatedAt s mergeInto.id firstSeen
  mergeDistinctIdsLoop mergeInto s peopleToMerge

/-- What one `alias` run did: the resulting store, how many promise rejections
went unhandled (promises the source never awaits), and whether any catch branch
re-ran the operation. -/
structure AliasOutcome where
  state : PgState
  unhandledRejections : Nat
  retried : Bool
deriving Repr, DecidableEq

/-- Counts a dropped rejection. -/
def errCount : Option String → Nat
  | none => 0
  | some _ => 1

/-- `EventsProcessor.alias(previousDistinctId, distinctId, teamId)`. The two
`fetchPerson` reads happen first; `race` is whatever a concurrent worker commits
between those reads and the writes below — the exact window the source's catch
comments describe ("between .get and .addDistinctId"); pass `id` for a race-free
run. In every branch the distinct-id insertion (and the `mergePeople` call) is
made without `await`, so a rejection can never reach the enclosing `try`/`catch`:
the catch bodies — which would re-run `alias` once with `retryIfFailed = false` —
are unreachable, and `retried` is therefore always false while the rejection is
counted as unhandled. The only awaited call in any try is `createPerson`, which
cannot violate a constraint. -/
def aliasCall (race : PgState → PgState) (s : PgState) (now : Int)
    (previousDistinctId distinctId : String) (teamId : Nat) : AliasOutcome :=
  let oldPerson := fetchPerson s teamId previousDistinctId
  let newPerson := fetchPerson s teamId distinctId
  let s := race s
  match oldPerson, newPerson with
  | some oldP, none =>
    let (s, err) := dbAddDistinctId s oldP distinctId
    ⟨s, errCount err, false⟩
  | none, some newP =>
    let (s, err) := dbAddDistinctId s newP previousDistinctId
    ⟨s, errCount err, false⟩
  | none, none =>
    let (s, personCreated) := dbCreatePerson s now [] teamId false
    let (s, err1) := dbAddDistinctId s personCreated distinctId
    let (s, err2) := dbAddDistinctId s personCreated previousDistinctId
    ⟨s, errCount err1 + errCount err2, false⟩
  | some oldP, some newP =>
    if oldP.id != newP.id then
      let (s, err) := mergePeople s newP [oldP]
      ⟨s, errCount err, false⟩
    else
      ⟨s, 0, false⟩

/-- `EventsProcessor.updatePersonProperties(teamId, distinctId, properties,
propertiesOnce)`. When no person exists, the source creates one (with the `$set`
properties only) and attaches the distinct id, but stores the new row in
`personCreated` and never reassigns `personFound`; the following
`personFound!.properties` then dereferences `undefined` and throws. Only when
the awaited `createPerson`/`addDistinctId` rejects does the catch re-fetch into
`personFound`. -/
def updatePersonProperties (s : PgState) (now : Int) (teamId : Nat) (distinctId : String)
    (properties propertiesOnce : Props) : PgState × Except String PersonRec :=
  match fetchPerson s teamId distinctId with
  | some personFound =>
    let updatedProperties := jsSpread (jsSpread propertiesOnce personFound.properties) properties
    (dbUpdatePersonProperties s personFound.id updatedProperties,
      .ok { personFound with properties := updatedProperties })
  | none =>
    let (s, personCreated) := dbCreatePerson s now properties teamId false
    match dbAddDistinctId s personCreated distinctId with
    | (s, none) =>
      (s, .error "TypeError: cannot read properties of undefined")
    | (s, some _) =>
      match fetchPerson s teamId distinctId with
      | some personFound =>
        let updatedProperties :=
          jsSpread (jsSpread propertiesOnce personFound.properties) properties
        (dbUpdatePersonProperties s personFound.id updatedProperties,
          .ok { personFound with properties := updatedProperties })
      | none => (s, .error "TypeError: cannot read properties of undefined")

/-! ### Team event-name / property caches (src/ingestion/process-event.ts, `storeNamesAndProperties`) -/

/-- A JS runtime value, as far as the claims need one. -/
inductive JsVal where
  | str (s : String)
  | num (n : Int)
  | boolean (b : Bool)
  | jsNull
  | undef
  | arr (elems : List JsVal)
deriving Repr, BEq

/-- `typeof value === 'number'`. -/
def JsVal.isNumber : JsVal → Bool
  | .num _ => true
  | _ => false

/-- The JS `in` operator applied to an array: `key in arr` tests property keys of
the array object — the canonical decimal indices below `length`, and `"length"` —
not membership of the values. (Inherited `Array.prototype` method names would
also satisfy `in`; they never arise in the inputs considered and are omitted.) -/
def jsInArray (key : String) (arr : List String) : Bool :=
  ((List.range arr.length).map (fun n => toString n)).contains key || key == "length"

/-- The `posthog_team` columns `storeNamesAndProperties` touches. The
`*_with_usage` lists are modelled by the `event`/`key` field of their entries
(`usage_count` and `volume` are always null when pushed). The source guards each
list with truthiness; a JS array is always truthy, so the guards are not
modelled. -/
structure TeamRec where
  id : Nat
  ingested_event : Bool
  event_names : List String
  event_names_with_usage : List String
  event_properties : List String
  event_properties_with_usage : List String
  event_properties_numerical : List String
deriving Repr, DecidableEq

/-- `EventsProcessor.storeNamesAndProperties(team, event, properties)`: returns the
updated in-memory team row and the `save` flag (true iff the UPDATE of the team
row is issued). Membership is tested with `event in team.event_names` /
`key in team.event_properties` — the JS `in` operator on arrays. -/
def storeNamesAndProperties (team : TeamRec) (event : String)
    (properties : List (String × JsVal)) : TeamRec × Bool :=
  let acc0 :=
    if !team.ingested_event then ({ team with ingested_event := true }, true)
    else (team, false)
  let acc1 :=
    if !(jsInArray event acc0.1.event_names) then
      ({ acc0.1 with event_names := acc0.1.event_names ++ [event],
                     event_names_with_usage := acc0.1.event_names_with_usage ++ [event] }, true)
    else acc0
  properties.foldl
    (fun acc kv =>
      let acc2 :=
        if !(jsInArray kv.1 acc.1.event_properties) then
          ({ acc.1 with event_properties := acc.1.event_properties ++ [kv.1],
                        event_properties_with_usage :=
                          acc.1.event_properties_with_usage ++ [kv.1] }, true)
        else acc
      if kv.2.isNumber && !(jsInArray kv.1 acc2.1.event_properties_numerical) then
        ({ acc2.1 with event_properties_numerical :=
                         acc2.1.event_properties_numerical ++ [kv.1] }, true)
      else acc2)
    acc1

/-! ### Lazy plugin VM initialization retries (src/worker/vm/lazy.ts) -/

def MAX_SETUP_RETRIES : Nat := 10

def INITIALIZATION_RETRY_MULTIPLIER : Nat := 2

def INITIALIZATION_RETRY_BASE_MS : Nat := 3000

/-- How one initialization attempt ends: the VM compiles, the plugin raises a
`RetryError`, or it throws anything else. -/
inductive InitAttemptResult where
  | success
  | retryableError
  | fatalError
deriving Repr, DecidableEq

/-- What the latest `resolveInternalVm` promise resolved to (`pending` when the
environment's outcome sequence ran out with a retry still scheduled). -/
inductive VmResolution where
  | vm
  | null
  | pending
deriving Repr, DecidableEq

/-- Observable record of a `LazyPluginVM` initialization history. -/
structure InitRun where
  attempts : Nat
  retryDelaysMs : List Nat
  resolution : VmResolution
  pluginDisabled : Bool
  errorRecorded : Bool
deriving Repr, DecidableEq

/-- `LazyPluginVM.initVm` / `initialize`, driven by the sequence of attempt
outcomes. Each entry is one `initVm()` (which increments
`totalInitAttemptsCounter`) followed by one run of `initialize`. A retryable
error with the counter below `MAX_SETUP_RETRIES` schedules the next attempt
after `INITIALIZATION_RETRY_MULTIPLIER ^ (counter - 1) *
INITIALIZATION_RETRY_BASE_MS` ms; any other error, or a retryable one at the
cap, disables the plugin row (`disablePlugin`), records the error against the
config (`processError`) and resolves the handle to null. -/
def runInitVm (counter : Nat) : List InitAttemptResult → InitRun
  | [] => ⟨counter, [], .pending, false, false⟩
  | r :: rest =>
    let counter := counter + 1
    match r with
    | .success => ⟨counter, [], .vm, false, false⟩
    | .fatalError => ⟨counter, [], .null, true, true⟩
    | .retryableError =>
      if counter < MAX_SETUP_RETRIES then
        let delay := INITIALIZATION_RETRY_MULTIPLIER ^ (counter - 1) * INITIALIZATION_RETRY_BASE_MS
        let run := runInitVm counter rest
        ⟨run.attempts, delay :: run.retryDelaysMs, run.resolution,
          run.pluginDisabled, run.errorRecorded⟩
      else
        ⟨counter, [], .null, true, true⟩

/-- A fresh `LazyPluginVM` (the constructor starts with the counter at 0). -/
def lazyPluginVMRun (outcomes : List InitAttemptResult) : InitRun :=
  runInitVm 0 outcomes

/-! ### Distributed-lock singleton (src/main/services/redlock.ts) -/

/-- The two callbacks `startRedlock` keeps scheduling with `setTimeout`. -/
inductive RedlockAction where
  | tryToGetTheLock
  | extendLock
deriving Repr, DecidableEq

/-- Outcome of one `redlock.lock` call: acquired, rejected with
`Redlock.LockError`, or rejected with anything else. -/
inductive AcquireResult where
  | ok
  | lockError
  | otherError
deriving Repr, DecidableEq

/-- Outcome of one `lock.extend` call. -/
inductive ExtendResult where
  | ok
  | fail
deriving Repr, DecidableEq

/-- The coordinator's observable state after a callback ran: whether
`weHaveTheLock`, and which callback `lockTimeout` now holds with what delay. -/
structure RedlockState where
  weHaveTheLock : Bool
  scheduled : Option (RedlockAction × Nat)
deriving Repr, DecidableEq

def redlockDefaultTtlSeconds : Nat := 60

/-- `const lockTTL = ttl * 1000`. -/
def lockTTLms (ttl : Nat) : Nat := ttl * 1000

/-- `const retryDelay = lockTTL / 10`. -/
def retryDelayMs (ttl : Nat) : Nat := lockTTLms ttl / 10

/-- `const extendDelay = lockTTL / 2`. -/
def extendDelayMs (ttl : Nat) : Nat := lockTTLms ttl / 2

/-- `startRedlock` before any callback runs: not holding, with
`setTimeout(tryToGetTheLock, 0)` pending. -/
def redlockStart : RedlockState :=
  ⟨false, some (.tryToGetTheLock, 0)⟩

/-- One run of `tryToGetTheLock`: on success hold the lock and schedule
`extendLock` after `extendDelay`; on a `LockError` schedule another attempt
after `retryDelay`; on any other error log only (nothing scheduled). -/
def tryToGetTheLockStep (ttl : Nat) : AcquireResult → RedlockState
  | .ok => ⟨true, some (.extendLock, extendDelayMs ttl)⟩
  | .lockError => ⟨false, some (.tryToGetTheLock, retryDelayMs ttl)⟩
  | .otherError => ⟨false, none⟩

/-- One run of `extendLock`: on success keep the lock and reschedule after
`extendDelay`; on failure drop `weHaveTheLock` and schedule
`setTimeout(tryToGetTheLock, 0)`. -/
def extendLockStep (ttl : Nat) : ExtendResult → RedlockState
  | .ok => ⟨true, some (.extendLock, extendDelayMs ttl)⟩
  | .fail => ⟨false, some (.tryToGetTheLock, 0)⟩

/-! ### Action property filters (src/worker/ingestion/action-matcher.ts) -/

/-- The `PropertyOperator` enum. -/
inductive PropertyOperator where
  | Exact
  | IsNot
  | IContains
  | NotIContains
  | Regex
  | NotRegex
  | GreaterThan
  | LessThan
  | IsSet
  | IsNotSet
deriving Repr, DecidableEq

/-- A `PropertyFilterWithOperator`: the key, the operator, and the filter value
(possibly an array of candidates). -/
structure PropertyFilterRec where
  key : String
  operator : PropertyOperator
  value : JsVal

/-- `propertyOperatorToRequiredValueType`: the operators usable only on string
values. -/
def propertyOperatorToRequiredValueType : PropertyOperator → Option String
  | .IContains => some "string"
  | .NotIContains => some "string"
  | .Regex => some "string"
  | .NotRegex => some "string"
  | _ => none

/-- JS `typeof`. -/
def jsTypeof : JsVal → String
  | .str _ => "string"
  | .num _ => "number"
  | .boolean _ => "boolean"
  | .jsNull => "object"
  | .undef => "undefined"
  | .arr _ => "object"

/-- JS `String.prototype.includes`. -/
def strIncludes (s t : String) : Bool :=
  (List.range (s.length + 1)).any (fun i => List.isPrefixOf t.data (s.data.drop i))

/-- JS `>` on two values, modelled for number/number and string/string operands;
the coercing mixed combinations do not arise in the claims and yield false. -/
def jsGreater : JsVal → JsVal → Bool
  | .num a, .num b => decide (b < a)
  | .str a, .str b => decide (b < a)
  | _, _ => false

/-- JS `<`, same scope as `jsGreater`. -/
def jsLess : JsVal → JsVal → Bool
  | .num a, .num b => decide (a < b)
  | .str a, .str b => decide (a < b)
  | _, _ => false

/-- `checkPropertiesAgainstFilter(properties, filter)`. `properties` is the
possibly-missing properties object (`none` for both `null` and `undefined`, the
falsy cases of `!properties`); `regexTest pattern input` stands for
`new RegExp(pattern).test(input)`. An absent key reads as `undefined`. -/
def checkPropertiesAgainstFilter (regexTest : String → String → Bool)
    (properties : Option (List (String × JsVal))) (filter : PropertyFilterRec) : Bool :=
  match properties with
  | none => false
  | some props =>
    let possibleValues : List JsVal :=
      match filter.value with
      | .arr vs => vs
      | v => [v]
    let foundValue := (props.lookup filter.key).getD .undef
    if (propertyOperatorToRequiredValueType filter.operator).isSome &&
        !(propertyOperatorToRequiredValueType filter.operator == some (jsTypeof foundValue)) then
      false
    else
      let test : JsVal → Bool :=
        match filter.operator with
        | .Exact => fun possibleValue => possibleValue == foundValue
        | .IsNot => fun possibleValue => possibleValue != foundValue
        | .IContains => fun possibleValue =>
          match possibleValue, foundValue with
          | .str pv, .str fv => strIncludes fv.toLower pv.toLower
          | _, _ => false
        | .NotIContains => fun possibleValue =>
          match possibleValue, foundValue with
          | .str pv, .str fv => !(strIncludes fv.toLower pv.toLower)
          | _, _ => false
        | .Regex => fun possibleValue =>
          match possibleValue, foundValue with
          | .str pv, .str fv => regexTest pv fv
          | _, _ => false
        | .NotRegex => fun possibleValue =>
          match possibleValue, foundValue with
          | .str pv, .str fv => !(regexTest pv fv)
          | _, _ => false
        | .GreaterThan => fun possibleValue => jsGreater foundValue possibleValue
        | .LessThan => fun possibleValue => jsLess foundValue possibleValue
        | .IsSet => fun _ => foundValue != .undef
        | .IsNotSet => fun _ => foundValue == .undef
      possibleValues.any test

/-! ### Concrete scenarios used by the theorems -/

/-- Rows loaded in ascending id order whose orders disagree with the id order. -/
def c1WitnessRows : List PluginConfigRow := [⟨1, 7, 1, 2⟩, ⟨2, 7, 1, 1⟩]

/-- Two configs with the same `order`, loaded with the larger id first. -/
def c1TieRows : List PluginConfigRow := [⟨2, 7, 1, 5⟩, ⟨1, 7, 1, 5⟩]

/-- Person A, owner of distinct id "prev". -/
def mergeExA : PersonRec := ⟨1, 1, [("k", "a"), ("x", "a")], false, 100⟩

/-- Person B, owner of distinct id "cur". -/
def mergeExB : PersonRec := ⟨2, 1, [("k", "b")], false, 200⟩

/-- A store holding A and B with their distinct ids and one cohort row for A. -/
def mergeExSt : PgState :=
  ⟨[mergeExA, mergeExB], [⟨1, 1, "prev", 1⟩, ⟨2, 2, "cur", 1⟩], [⟨1, 1⟩], 3, 3⟩

/-- A store where only "prev" is attached (to person 1). -/
def c3StPrevOnly : PgState := ⟨[⟨1, 1, [], false, 100⟩], [⟨1, 1, "prev", 1⟩], [], 5, 5⟩

/-- A store where only "cur" is attached (to person 1). -/
def c3StCurOnly : PgState := ⟨[⟨1, 1, [], false, 100⟩], [⟨1, 1, "cur", 1⟩], [], 5, 5⟩

/-- An empty store. -/
def c3StEmpty : PgState := ⟨[], [], [], 5, 5⟩

/-- A store holding one person with distinct id "A" only. -/
def c5Base : PgState := ⟨[⟨1, 1, [], false, 100⟩], [⟨1, 1, "A", 1⟩], [], 10, 10⟩

/-- The concurrent worker that wins the race: between alias's two reads and its
insert it creates person 9 and attaches "B" to it. -/
def c5Race (s : PgState) : PgState :=
  { s with persons := s.persons ++ [⟨9, 1, [], false, 150⟩],
           pdis := s.pdis ++ [⟨9, 9, "B", 1⟩] }

/-- A team that has already seen the event name `$pageview`. -/
def c7Team : TeamRec := ⟨1, true, ["$pageview"], ["$pageview"], [], [], []⟩

/-- A team that has seen `x` but never the event name `0`. -/
def c7TeamB : TeamRec := ⟨1, true, ["x"], ["x"], [], [], []⟩

/-- An empty person store with serial keys at 1. -/
def c8St : PgState := ⟨[], [], [], 1, 1⟩

/-- The error of an `Except` result, if it is one. -/
def exceptErrorMsg : Except String PersonRec → Option String
  | .error e => some e
  | .ok _ => none

/-! ### Helper lemmas -/

theorem mem_sortInsertByOrder {x a : PluginConfigRow} {l : List PluginConfigRow}
    (h : x ∈ sortInsertByOrder a l) : x = a ∨ x ∈ l := by
  induction l with
  | nil => simpa [sortInsertByOrder] using h
  | cons b l ih =>
    simp only [sortInsertByOrder] at h
    split at h
    · rcases List.mem_cons.mp h with h | h
      · exact Or.inr (by simp [h])
      · rcases ih h with h | h
        · exact Or.inl h
        · exact Or.inr (by simp [h])
    · rcases List.mem_cons.mp h with h | h
      · exact Or.inl h
      · exact Or.inr h

theorem pairwise_sortInsertByOrder {a : PluginConfigRow} {l : List PluginConfigRow}
    (hl : l.Pairwise pcLexLt) (ha : ∀ x ∈ l, x.id < a.id) :
    (sortInsertByOrder a l).Pairwise pcLexLt := by
  induction l with
  | nil => simp [sortInsertByOrder]
  | cons b l ih =>
    rcases List.pairwise_cons.mp hl with ⟨hbl, hl2⟩
    simp only [sortInsertByOrder]
    split
    · rename_i hble
      refine List.pairwise_cons.mpr ⟨?_, ih hl2 (fun x hx => ha x (by simp [hx]))⟩
      intro y hy
      rcases mem_sortInsertByOrder hy with rfl | hy
      · rcases lt_or_eq_of_le hble with h | h
        · exact Or.inl h
        · exact Or.inr ⟨h, ha b (by simp)⟩
      · exact hbl y hy
    · rename_i hble
      have hab : a.order < b.order := lt_of_not_le hble
      refine List.pairwise_cons.mpr ⟨?_, hl⟩
      intro y hy
      rcases List.mem_cons.mp hy with rfl | hy
      · exact Or.inl hab
      · have hby : b.order ≤ y.order := by
          rcases hbl y hy with h | ⟨h, _⟩
          · exact le_of_lt h
          · exact le_of_eq h
        exact Or.inl (lt_of_lt_of_le hab hby)

theorem pairwise_jsSort_go {l acc : List PluginConfigRow}
    (hl : l.Pairwise (fun a b => a.id < b.id))
    (hacc : acc.Pairwise pcLexLt)
    (hcross : ∀ x ∈ acc, ∀ r ∈ l, x.id < r.id) :
    (l.foldl (fun acc a => sortInsertByOrder a acc) acc).Pairwise pcLexLt := by
  induction l generalizing acc with
  | nil => simpa using hacc
  | cons a l ih =>
    rcases List.pairwise_cons.mp hl with ⟨hal, hl2⟩
    simp only [List.foldl_cons]
    refine ih hl2 (pairwise_sortInsertByOrder hacc (fun x hx => hcross x hx a (by simp))) ?_
    intro x hx r hr
    rcases mem_sortInsertByOrder hx with rfl | hx
    · exact hal r hr
    · exact hcross x hx r (by simp [hr])

theorem pairwise_jsSortByOrder {l : List PluginConfigRow}
    (hl : l.Pairwise (fun a b => a.id < b.id)) :
    (jsSortByOrder l).Pairwise pcLexLt :=
  pairwise_jsSort_go hl List.Pairwise.nil (fun x hx => absurd hx (List.not_mem_nil x))

theorem runInitVm_retry_eq (c : Nat) (rest : List InitAttemptResult) :
    runInitVm c (InitAttemptResult.retryableError :: rest) =
      if c + 1 < MAX_SETUP_RETRIES then
        ⟨(runInitVm (c + 1) rest).attempts,
          INITIALIZATION_RETRY_MULTIPLIER ^ c * INITIALIZATION_RETRY_BASE_MS ::
            (runInitVm (c + 1) rest).retryDelaysMs,
          (runInitVm (c + 1) rest).resolution,
          (runInitVm (c + 1) rest).pluginDisabled,
          (runInitVm (c + 1) rest).errorRecorded⟩
      else ⟨c + 1, [], .null, true, true⟩ := by
  simp only [runInitVm]
  split <;> simp [Nat.add_sub_cancel]

theorem runInitVm_delays (outcomes : List InitAttemptResult) :
    ∀ c i : Nat, i < (runInitVm c outcomes).retryDelaysMs.length →
      (runInitVm c outcomes).retryDelaysMs.getD i 0 =
        INITIALIZATION_RETRY_MULTIPLIER ^ (c + i) * INITIALIZATION_RETRY_BASE_MS := by
  induction outcomes with
  | nil => intro c i h; simp [runInitVm] at h
  | cons r rest ih =>
    intro c i h
    match r with
    | .success => simp [runInitVm] at h
    | .fatalError => simp [runInitVm] at h
    | .retryableError =>
      rw [runInitVm_retry_eq] at h ⊢
      by_cases h2 : c + 1 < MAX_SETUP_RETRIES
      · rw [if_pos h2] at h ⊢
        match i with
        | 0 => simp
        | i + 1 =>
          have h3 := ih (c + 1) i (by simpa using h)
          have h4 : c + 1 + i = c + (i + 1) := by omega
          rw [h4] at h3
          simpa using h3
      · rw [if_neg h2] at h
        simp at h

theorem runInitVm_attempts_le (outcomes : List InitAttemptResult) :
    ∀ c : Nat, c ≤ MAX_SETUP_RETRIES - 1 →
      (runInitVm c outcomes).attempts ≤ MAX_SETUP_RETRIES := by
  induction outcomes with
  | nil =>
    intro c hc
    simp only [runInitVm, MAX_SETUP_RETRIES] at hc ⊢
    omega
  | cons r rest ih =>
    intro c hc
    match r with
    | .success => simp only [runInitVm, MAX_SETUP_RETRIES] at hc ⊢; omega
    | .fatalError => simp only [runInitVm, MAX_SETUP_RETRIES] at hc ⊢; omega
    | .retryableError =>
      rw [runInitVm_retry_eq]
      by_cases h2 : c + 1 < MAX_SETUP_RETRIES
      · rw [if_pos h2]
        exact ih (c + 1) (by simp only [MAX_SETUP_RETRIES] at h2 ⊢; omega)
      · rw [if_neg h2]
        simp only [MAX_SETUP_RETRIES] at hc ⊢
        omega

theorem runInitVm_fatal_fails (pre : List InitAttemptResult) :
    ∀ (c : Nat) (rest : List InitAttemptResult),
      (∀ r ∈ pre, r = InitAttemptResult.retryableError) →
      (runInitVm c (pre ++ InitAttemptResult.fatalError :: rest)).resolution = .null ∧
        (runInitVm c (pre ++ InitAttemptResult.fatalError :: rest)).pluginDisabled ∧
        (runInitVm c (pre ++ InitAttemptResult.fatalError :: rest)).errorRecorded := by
  induction pre with
  | nil => intro c rest _; simp [runInitVm]
  | cons r pre ih =>
    intro c rest hall
    have hr : r = InitAttemptResult.retryableError := hall r (by simp)
    subst hr
    rw [List.cons_append, runInitVm_retry_eq]
    by_cases h2 : c + 1 < MAX_SETUP_RETRIES
    · rw [if_pos h2]
      exact ih (c + 1) rest (fun x hx => hall x (by simp [hx]))
    · rw [if_neg h2]
      exact ⟨rfl, rfl, rfl⟩

theorem runInitVm_exhaustion_fails (outcomes : List InitAttemptResult) :
    ∀ c : Nat, c < MAX_SETUP_RETRIES → MAX_SETUP_RETRIES - c ≤ outcomes.length →
      (∀ r ∈ outcomes, r = InitAttemptResult.retryableError) →
      (runInitVm c outcomes).resolution = .null ∧
        (runInitVm c outcomes).pluginDisabled ∧
        (runInitVm c outcomes).errorRecorded := by
  induction outcomes with
  | nil =>
    intro c hc hlen _
    simp only [List.length_nil, MAX_SETUP_RETRIES] at hc hlen
    exfalso
    omega
  | cons r rest ih =>
    intro c hc hlen hall
    have hr : r = InitAttemptResult.retryableError := hall r (by simp)
    subst hr
    rw [runInitVm_retry_eq]
    by_cases h2 : c + 1 < MAX_SETUP_RETRIES
    · rw [if_pos h2]
      refine ih (c + 1) h2 ?_ (fun x hx => hall x (by simp [hx]))
      simp only [List.length_cons, MAX_SETUP_RETRIES] at hlen ⊢
      omega
    · rw [if_neg h2]
      exact ⟨rfl, rfl, rfl⟩

theorem runInitVm_null_disables (outcomes : List InitAttemptResult) :
    ∀ c : Nat,
      ((runInitVm c outcomes).resolution = .null ∨ (runInitVm c outcomes).pluginDisabled) →
        (runInitVm c outcomes).resolution = .null ∧ (runInitVm c outcomes).pluginDisabled ∧
          (runInitVm c outcomes).errorRecorded := by
  induction outcomes with
  | nil => intro c h; simp [runInitVm] at h
  | cons r rest ih =>
    intro c h
    match r with
    | .success => simp [runInitVm] at h
    | .fatalError => simp [runInitVm]
    | .retryableError =>
      rw [runInitVm_retry_eq] at h ⊢
      by_cases h2 : c + 1 < MAX_SETUP_RETRIES
      · rw [if_pos h2] at h ⊢
        exact ih (c + 1) h
      · rw [if_neg h2]
        exact ⟨rfl, rfl, rfl⟩

/-! ### The claims -/

/-- C1 (as stated, refuted): after a setupPlugins load in which two equal-`order`
configs arrive with the larger id first, the team's pipeline list is not sorted
strictly ascending by `(order, id)` — the comparator uses `order` alone and the
stable sort keeps the load order of the tie. -/
theorem c1_equal_order_ties_not_sorted_by_id :
    ¬ (setupPluginsTeamPipeline [7] c1TieRows 1).Pairwise pcLexLt := by
  decide

/-- C1 (amended): after any setupPlugins load whose plugin-config rows arrive in
ascending id order, every team's pipeline list is sorted strictly ascending by
`(order, id)` — equal orders tie-break by id because the order-only sort is
stable — and pipeline execution visits the configs of an event's team in exactly
this list order. -/
theorem c1_team_pipeline_sorted_by_order_then_id
    (pluginIds : List Nat) (rows : List PluginConfigRow) (teamId : Nat)
    (hids : rows.Pairwise (fun a b => a.id < b.id)) :
    (setupPluginsTeamPipeline pluginIds rows teamId).Pairwise pcLexLt ∧
    pipelineVisitOrder pluginIds rows teamId =
      (setupPluginsTeamPipeline pluginIds rows teamId).map (fun c => c.id) :=
  ⟨pairwise_jsSortByOrder (List.Pairwise.filter _ hids), rfl⟩

/-- Witness for C1's amended theorem at two id-ascending rows whose orders are
reversed. -/
theorem c1_team_pipeline_sorted_witness :
    c1WitnessRows.Pairwise (fun a b => a.id < b.id) ∧
    ((setupPluginsTeamPipeline [7] c1WitnessRows 1).Pairwise pcLexLt ∧
      pipelineVisitOrder [7] c1WitnessRows 1 =
        (setupPluginsTeamPipeline [7] c1WitnessRows 1).map (fun c => c.id)) :=
  ⟨by decide, c1_team_pipeline_sorted_by_order_then_id [7] c1WitnessRows 1 (by decide)⟩

/-- C2: for every incoming event the resolved event time of
`EventsProcessor.handleTimestamp` equals the spec's precedence rules — `now +
(timestamp − sent_at)` when both are present, the timestamp verbatim when it
alone is present, `now − offset` when an offset is present, else `now`, a parse
error in rule 1 falling through to the next rule. -/
theorem c2_handleTimestamp_matches_spec (fromISO : String → Option Int)
    (timestamp : Option String) (offset : Option Int) (now : Int) (sentAt : Option Int) :
    handleTimestamp fromISO timestamp offset now sentAt =
      specEventTime fromISO timestamp offset now sentAt := by
  cases timestamp with
  | none =>
    cases offset with
    | none => simp [handleTimestamp, handleNoTimestamp, specEventTime, jsTruthyStr]
    | some o =>
      by_cases ho : o = 0 <;>
        simp [handleTimestamp, handleNoTimestamp, specEventTime, jsTruthyStr, ho]
  | some ts =>
    by_cases hts : ts = ""
    · subst hts
      cases offset with
      | none => simp [handleTimestamp, handleNoTimestamp, specEventTime, jsTruthyStr]
      | some o =>
        by_cases ho : o = 0 <;>
          simp [handleTimestamp, handleNoTimestamp, specEventTime, jsTruthyStr, ho]
    · cases sentAt with
      | none => simp [handleTimestamp, specEventTime, jsTruthyStr, hts]
      | some sa =>
        cases hf : fromISO ts with
        | some t => simp [handleTimestamp, specEventTime, jsTruthyStr, hts, hf]
        | none => simp [handleTimestamp, specEventTime, jsTruthyStr, hts, hf]

/-- C3: alias attaches `current` to A when only A exists, attaches `previous` to
B when only B exists, and creates exactly one person carrying both ids when
neither exists — but in the both-present case the claimed merge of A into B does
not happen: the merge aborts on its first query (the person object is passed
where its id belongs), A survives with its distinct id, and the rejection goes
unhandled. -/
theorem c3_alias_merge_case_leaves_old_person :
    ((aliasCall id c3StPrevOnly 300 "prev" "cur" 1).state.pdis.map
        (fun r => (r.distinct_id, r.person_id)) = [("prev", 1), ("cur", 1)]) ∧
    ((aliasCall id c3StCurOnly 300 "prev" "cur" 1).state.pdis.map
        (fun r => (r.distinct_id, r.person_id)) = [("cur", 1), ("prev", 1)]) ∧
    ((aliasCall id c3StEmpty 300 "prev" "cur" 1).state.persons.map PersonRec.id = [5] ∧
      (aliasCall id c3StEmpty 300 "prev" "cur" 1).state.pdis.map
        (fun r => (r.distinct_id, r.person_id)) = [("cur", 5), ("prev", 5)]) ∧
    ((aliasCall id mergeExSt 300 "prev" "cur" 1).state.persons.map PersonRec.id = [1, 2] ∧
      (aliasCall id mergeExSt 300 "prev" "cur" 1).state.pdis.map
        (fun r => (r.distinct_id, r.person_id)) = [("prev", 1), ("cur", 2)] ∧
      (aliasCall id mergeExSt 300 "prev" "cur" 1).unhandledRejections = 1) := by
  decide

/-- C4: `mergePeople(B, [A])` rejects on its distinct-id SELECT (the parameter is
the person object, not its id), so after the call B's `created_at` is the
earlier value but B's stored properties are unmerged, A's distinct ids still
point at A, the cohort row still points at A, and A is not deleted. -/
theorem c4_mergePeople_aborts_before_moving_distinct_ids :
    (mergePeople mergeExSt mergeExB [mergeExA]).2 =
      some "invalid input syntax for type integer" ∧
    (mergePeople mergeExSt mergeExB [mergeExA]).1.persons.map PersonRec.id = [1, 2] ∧
    (mergePeople mergeExSt mergeExB [mergeExA]).1.pdis = mergeExSt.pdis ∧
    (mergePeople mergeExSt mergeExB [mergeExA]).1.cohorts = [⟨1, 1⟩] ∧
    ((mergePeople mergeExSt mergeExB [mergeExA]).1.persons.find?
        (fun p => p.id == 2)).map PersonRec.properties = some [("k", "b")] ∧
    ((mergePeople mergeExSt mergeExB [mergeExA]).1.persons.find?
        (fun p => p.id == 2)).map PersonRec.created_at = some 100 := by
  decide

/-- C5: when a concurrent worker attaches "B" between alias's reads and its
insert, the unique-constraint violation on the distinct-id insertion is not
caught — the insert is not awaited, so the rejection bypasses the try/catch as
an unhandled rejection — and the operation is never retried, contrary to the
claimed catch-and-retry-once behaviour. -/
theorem c5_unique_violation_not_caught_no_retry :
    (aliasCall c5Race c5Base 300 "A" "B" 1).unhandledRejections = 1 ∧
    (aliasCall c5Race c5Base 300 "A" "B" 1).retried = false ∧
    (aliasCall c5Race c5Base 300 "A" "B" 1).state.pdis.map PdiRec.distinct_id =
      ["A", "B"] := by
  decide

/-- C6: over any sequence of initialization outcomes, the n-th scheduled retry of
`LazyPluginVM` (1-based, index i = n − 1 here) fires after 2^(n−1) · 3000 ms =
3 · 2^(n−1) seconds; at most `MAX_SETUP_RETRIES` = 10 attempts are ever made; a
non-retryable error (reached after any run of retryable ones) disables the
plugin row, records the error against the config and resolves the handle to
null; exhausting the 10 attempts on retryable errors does the same; and the
three effects only ever occur together. -/
theorem c6_init_retry_policy (outcomes : List InitAttemptResult) :
    (∀ i, i < (lazyPluginVMRun outcomes).retryDelaysMs.length →
      (lazyPluginVMRun outcomes).retryDelaysMs.getD i 0 =
        INITIALIZATION_RETRY_MULTIPLIER ^ i * INITIALIZATION_RETRY_BASE_MS) ∧
    (lazyPluginVMRun outcomes).attempts ≤ MAX_SETUP_RETRIES ∧
    (∀ pre rest, outcomes = pre ++ InitAttemptResult.fatalError :: rest →
      (∀ r ∈ pre, r = InitAttemptResult.retryableError) →
      (lazyPluginVMRun outcomes).resolution = .null ∧
        (lazyPluginVMRun outcomes).pluginDisabled ∧
        (lazyPluginVMRun outcomes).errorRecorded) ∧
    ((∀ r ∈ outcomes, r = InitAttemptResult.retryableError) →
      MAX_SETUP_RETRIES ≤ outcomes.length →
      (lazyPluginVMRun outcomes).resolution = .null ∧
        (lazyPluginVMRun outcomes).pluginDisabled ∧
        (lazyPluginVMRun outcomes).errorRecorded) ∧
    (((lazyPluginVMRun outcomes).resolution = .null ∨
        (lazyPluginVMRun outcomes).pluginDisabled) →
      (lazyPluginVMRun outcomes).resolution = .null ∧
        (lazyPluginVMRun outcomes).pluginDisabled ∧
        (lazyPluginVMRun outcomes).errorRecorded) :=
  ⟨fun i h => by simpa using runInitVm_delays outcomes 0 i h,
   runInitVm_attempts_le outcomes 0 (by decide),
   fun pre rest he hall => by
     rw [he]
     exact runInitVm_fatal_fails pre 0 rest hall,
   fun hall hlen =>
     runInitVm_exhaustion_fails outcomes 0 (by decide) (by simpa using hlen) hall,
   runInitVm_null_disables outcomes 0⟩

/-- Witness for C6: at two retryable failures then success the second retry delay
is 6000 ms and at most 10 attempts were made; a retryable failure followed by a
fatal error, and a run of ten retryable failures, each leave the plugin row
disabled, the error recorded and the handle resolved null. -/
theorem c6_init_retry_policy_witness :
    ((lazyPluginVMRun [.retryableError, .retryableError, .success]).retryDelaysMs.getD 1 0 =
      INITIALIZATION_RETRY_MULTIPLIER ^ 1 * INITIALIZATION_RETRY_BASE_MS) ∧
    (lazyPluginVMRun [.retryableError, .retryableError, .success]).attempts ≤
      MAX_SETUP_RETRIES ∧
    ((lazyPluginVMRun [.retryableError, .fatalError]).resolution = .null ∧
      (lazyPluginVMRun [.retryableError, .fatalError]).pluginDisabled ∧
      (lazyPluginVMRun [.retryableError, .fatalError]).errorRecorded) ∧
    ((lazyPluginVMRun (List.replicate 10 .retryableError)).resolution = .null ∧
      (lazyPluginVMRun (List.replicate 10 .retryableError)).pluginDisabled ∧
      (lazyPluginVMRun (List.replicate 10 .retryableError)).errorRecorded) :=
  ⟨(c6_init_retry_policy [.retryableError, .retryableError, .success]).1 1 (by decide),
   (c6_init_retry_policy [.retryableError, .retryableError, .success]).2.1,
   (c6_init_retry_policy [.retryableError, .fatalError]).2.2.1
     [InitAttemptResult.retryableError] [] rfl (by decide),
   (c6_init_retry_policy (List.replicate 10 .retryableError)).2.2.2.1
     (by decide) (by decide)⟩

/-- C7: `storeNamesAndProperties` appends the event name `$pageview` again for a
team that has already recorded it (and persists the row), because the membership
test `event in team.event_names` checks array indices, not values; conversely an
unseen event named `0` is not appended at all when the list has one entry. -/
theorem c7_storeNames_appends_duplicate_event_name :
    (storeNamesAndProperties c7Team "$pageview" []).1.event_names =
      ["$pageview", "$pageview"] ∧
    (storeNamesAndProperties c7Team "$pageview" []).2 = true ∧
    (storeNamesAndProperties c7TeamB "0" []).1.event_names = ["x"] := by
  decide

/-- C8: an identify-driven update for a distinct id with no existing person
creates the person with the `$set` map only and then throws (the created person
is never assigned to `personFound`, whose `!`-dereference is undefined): the
stored properties are `[("b", "2")]` — the `$set_once` entry `("a", "1")` is
dropped, contrary to the claimed `set_once ∪ existing ∪ set` merge. -/
theorem c8_fresh_person_drops_set_once :
    exceptErrorMsg (updatePersonProperties c8St 0 1 "d" [("b", "2")] [("a", "1")]).2 =
      some "TypeError: cannot read properties of undefined" ∧
    (updatePersonProperties c8St 0 1 "d" [("b", "2")] [("a", "1")]).1.persons.map
        PersonRec.properties = [[("b", "2")]] := by
  decide

/-- C9 (as stated, refuted): after an extension failure with the default 60 s
TTL, the coordinator schedules re-acquisition with delay 0, not with the claimed
retry delay L/10 = 6000 ms. -/
theorem c9_extension_failure_reenters_immediately :
    extendLockStep redlockDefaultTtlSeconds ExtendResult.fail =
      ⟨false, some (RedlockAction.tryToGetTheLock, 0)⟩ ∧
    extendLockStep redlockDefaultTtlSeconds ExtendResult.fail ≠
      ⟨false, some (RedlockAction.tryToGetTheLock, retryDelayMs redlockDefaultTtlSeconds)⟩ := by
  decide

/-- C9 (amended): for a lock of TTL L (default 60 s) the holder schedules an
extension every L/2; on an extension failure it drops `weHaveTheLock` and
re-enters the acquisition loop immediately (delay 0); while not holding the
lock, an acquisition attempt that fails with a lock error is retried after
L/10. -/
theorem c9_redlock_schedule_amended (ttl : Nat) :
    redlockDefaultTtlSeconds = 60 ∧
    lockTTLms redlockDefaultTtlSeconds = 60000 ∧
    extendDelayMs ttl = ttl * 1000 / 2 ∧
    tryToGetTheLockStep ttl AcquireResult.ok =
      ⟨true, some (RedlockAction.extendLock, extendDelayMs ttl)⟩ ∧
    extendLockStep ttl ExtendResult.ok =
      ⟨true, some (RedlockAction.extendLock, extendDelayMs ttl)⟩ ∧
    extendLockStep ttl ExtendResult.fail =
      ⟨false, some (RedlockAction.tryToGetTheLock, 0)⟩ ∧
    tryToGetTheLockStep ttl AcquireResult.lockError =
      ⟨false, some (RedlockAction.tryToGetTheLock, ttl * 1000 / 10)⟩ ∧
    redlockStart = ⟨false, some (RedlockAction.tryToGetTheLock, 0)⟩ :=
  ⟨rfl, rfl, rfl, rfl, rfl, rfl, rfl, rfl⟩

/-- C10: for every property filter — whatever its operator, `is_not_set`
included — `checkPropertiesAgainstFilter` returns false when the supplied
properties object is null or undefined. -/
theorem c10_null_properties_never_match (regexTest : String → String → Bool)
    (filter : PropertyFilterRec) :
    checkPropertiesAgainstFilter regexTest none filter = false :=
  rfl
